import Mathlib

/-!
Verification of the local-app coordination layer of the Gitpod
extension (extensions/gitpod/src/localApp.ts): the lease lock built on
a shared key/value store (withLock), the stale-lock sweep
(releaseStaleLocks), the installer and supervisor orchestration
(ensureLocalApp) and the RPC retry loop (withLocalApp).  Store reads
and writes are modelled as atomic steps of an interleaving semantics;
external effects (process liveness, the download endpoint, the
filesystem, process spawning) are parameters of the model.
-/

namespace Gitpod

/-- A lock record as stored under a lock key (interface Lock,
localApp.ts lines 30-34).  The owner token (field value, the unique
string sessionId + lockCount in the source) is modelled as the index
of the acquiring attempt, so distinct attempts carry distinct
tokens by construction. -/
structure Lock where
  value : Nat
  deadline : Nat
  pid : Option Nat
deriving DecidableEq

/-- Line 106: the poll interval (ms) of the acquisition loop and of
the renewal timer. -/
def updateTimeout : Nat := 150

/-- Line 51: period (ms) of the stale-lock sweep. -/
def checkStaleInterval : Nat := 30000

/-- Line 52: lease timeout (ms) used for the installation lock. -/
def installLockTimeout : Nat := 300000

/-- Line 110: the deadline written together with a fresh record. -/
def lockDeadline (now timeout : Nat) : Nat := now + timeout + updateTimeout * 2

/-- Program counter of one withLock acquisition attempt, the poll loop
of lines 107-116: read1 is the read at the top of an iteration, writeL
is reached when that read observed no record and the attempt is about
to write its own, read2 is the verifying re-read after the sleep, and
granted means the re-read returned the attempt's own token and the
loop exited. -/
inductive APC where
  | read1
  | writeL
  | read2
  | granted
deriving DecidableEq

/-- One atomic store access of the attempt whose token is tok, with
deadline dl and pid pd, translated from the loop body of lines
107-116.  The caller's cancellation flag is passed in because withLock
receives a token, but the loop body of the source performs no
cancellation check, so the flag is not consulted by any branch. -/
def stepAttempt (cancelled : Bool) (tok dl pd : Nat)
    (store : Option Lock) (pc : APC) : Option Lock × APC :=
  match pc with
  | .read1 =>
    match store with
    | none => (store, .writeL)
    | some _ => (store, .read2)
  | .writeL => (some { value := tok, deadline := dl, pid := some pd }, .read2)
  | .read2 =>
    match store with
    | some l => if l.value = tok then (store, .granted) else (store, .read1)
    | none => (store, .read1)
  | .granted => (store, .granted)

/-- Global state of n concurrent withLock attempts on one lock name:
the shared cell under the lock key and each attempt's position in the
loop. -/
structure LockSys (n : Nat) where
  store : Option Lock
  pcs : Fin n → APC

/-- Attempt i takes its next atomic step; everything else is
unchanged.  Attempt i writes token i, its configured deadline dl i and
its process id pd i. -/
def stepSys {n : Nat} (cancel : Fin n → Bool) (dl pd : Fin n → Nat)
    (s : LockSys n) (i : Fin n) : LockSys n :=
  let r := stepAttempt (cancel i) i.val (dl i) (pd i) s.store (s.pcs i)
  { store := r.1, pcs := Function.update s.pcs i r.2 }

/-- Run the interleaving given by sched: at each step the scheduled
attempt performs its next atomic store access. -/
def runLock {n : Nat} (cancel : Fin n → Bool) (dl pd : Fin n → Nat) :
    List (Fin n) → LockSys n → LockSys n
  | [], s => s
  | i :: rest, s => runLock cancel dl pd rest (stepSys cancel dl pd s i)

/-- Initial state: no record stored, every attempt at the top of the
loop. -/
def lockInit (n : Nat) : LockSys n :=
  { store := none, pcs := fun _ => APC.read1 }

/-- A schedule is write-safe when every scheduled write lands on a
still-empty cell, i.e. no write is based on a stale empty read.  This
is the hypothesis under which the optimistic write-then-verify
protocol is actually exclusive. -/
def safeSchedB {n : Nat} (cancel : Fin n → Bool) (dl pd : Fin n → Nat) :
    List (Fin n) → LockSys n → Bool
  | [], _ => true
  | i :: rest, s =>
    decide (s.pcs i = APC.writeL → s.store = none) &&
      safeSchedB cancel dl pd rest (stepSys cancel dl pd s i)

/-- Invariant: every granted attempt's token is the one currently
stored; in particular while the cell is empty nobody is granted, and
two simultaneously granted attempts would carry the same token. -/
def MutexInv {n : Nat} (s : LockSys n) : Prop :=
  ∀ k : Fin n, s.pcs k = APC.granted → ∃ l, s.store = some l ∧ k.val = l.value

/-- An initial contended state used below: the cell already holds a
record of a foreign owner (token 5, pid 9) and the single local
attempt is polling. -/
def contendedInit : LockSys 1 :=
  { store := some { value := 5, deadline := 10000, pid := some 9 }
    pcs := fun _ => APC.read1 }

/-- Lines 118-119: after acquisition a fresh token source is created
and the caller's token is linked to it, so the guarded operation
observes cancellation as soon as the caller cancels or the renewal
timer cancels. -/
def opTokenCancelled (callerCancelled timerCancelled : Bool) : Bool :=
  callerCancelled || timerCancelled

/-- Lines 121-123 as a predicate: the renewal check fires (the guard
is cancelled) exactly when the stored record no longer carries the
holder's own token; an empty cell also fires, since an absent record
compares unequal to the token in the source. -/
def renewalCancels (store : Option Lock) (tok : Nat) : Bool :=
  match store with
  | some l => decide (l.value ≠ tok)
  | none => true

/-- One tick of the holder's renewal timer, lines 120-125: it re-reads
the record and cancels the in-progress operation when the stored token
differs from its own.  The tick contains no store update, so the
returned cell is the cell that was read. -/
def renewalTick (store : Option Lock) (tok : Nat) (cancelState : Bool) :
    Option Lock × Bool :=
  match store with
  | some l => (some l, if l.value ≠ tok then true else cancelState)
  | none => (none, true)

/-- Lines 126-135: the guarded operation finishes with outcome r
(a value or a thrown error, cancellation arriving as an error), and
the finally block unconditionally writes absent to the lock key; the
outcome passes through unchanged.  The current cell content is not
consulted. -/
def withLockFinish (store : Option Lock) (r : Except String Nat) :
    Option Lock × Except String Nat :=
  (none, r)

/-- Line 50: prefix of all lock keys in the shared store. -/
def lockPrefix : String := "lock/"

/-- A value found in the shared store under a lock key: either a lock
record, or a value for which the isLock guard of line 53 fails (null
or a non-object). -/
inductive GVal where
  | lockRecord (l : Lock)
  | nonLockValue
deriving DecidableEq

/-- Line 53-55: the isLock guard. -/
def isLock : GVal → Bool
  | .lockRecord _ => true
  | .nonLockValue => false

/-- The deletion condition of the sweep, line 86: the value fails the
isLock guard, or the deadline has been reached (Date.now() >=
lock.deadline), or a pid field is present and that process is not
running.  alive p models checkRunning p returning true. -/
def shouldReleaseLock (now : Nat) (alive : Nat → Bool) : GVal → Bool
  | .nonLockValue => true
  | .lockRecord l =>
    decide (l.deadline ≤ now) ||
      (match l.pid with
       | some p => !(alive p)
       | none => false)

/-- One sweep cycle, lines 81-93: every key starting with the lock
prefix whose value satisfies the deletion condition is updated to
absent; all other entries are untouched. -/
def releaseStaleLocks (now : Nat) (alive : Nat → Bool)
    (store : List (String × GVal)) : List (String × GVal) :=
  store.filter (fun kv =>
    !(kv.1.startsWith lockPrefix && shouldReleaseLock now alive kv.2))

/-- Lookup of a key in the modelled shared store (first matching
entry). -/
def lookupKey (k : String) : List (String × GVal) → Option GVal
  | [] => none
  | (a, v) :: rest => if k = a then some v else lookupKey k rest

/-- A running local-app descriptor (interface LocalAppConfig, lines
22-28). -/
structure LocalAppConfig where
  gitpodHost : String
  configFile : String
  apiPort : Nat
  pid : Nat
  logPath : String
deriving DecidableEq

/-- An installation record (interface LocalAppInstallation, lines
36-39); etag none models the null etag. -/
structure LocalAppInstallation where
  path : String
  etag : Option String
deriving DecidableEq

/-- A download response as observed by ensureLocalApp: the ok flag and
status text of the fetch response, and the value of its etag header
(none when the header is absent). -/
structure RawResp where
  ok : Bool
  statusText : String
  etag : Option String
deriving DecidableEq

/-- JS truthiness of the etag header value used in the upgrade guard
of line 310 (upgrade.etag is falsy when the header is null or the
empty string). -/
def etagTruthy : Option String → Bool
  | none => false
  | some s => decide (s ≠ "")

/-- The environment of one ensureLocalApp call: process liveness
(checkRunning, lines 57-64), the configured installation path from the
gitpod configuration (line 275, none models an unset or empty
setting), the outcome of the download fetch (downloadLocalApp, lines
138-161), the executability check fs.access X_OK, the outcome of
installLocalApp on a successful download (lines 163-199, returning the
record written to a fresh temporary file), the outcome of
startLocalApp (lines 201-261), and the state of the cancellation
token, constant over the call. -/
structure EnsureEnv where
  alive : Nat → Bool
  configuredInstallationPath : Option String
  download : Except String RawResp
  executable : String → Bool
  installFresh : RawResp → Except String LocalAppInstallation
  startApp : LocalAppInstallation → Except String LocalAppConfig
  cancelled : Bool

/-- The two shared-store entries read and written by ensureLocalApp:
the running config under configKey and the installation record under
installationKey. -/
structure EnsureState where
  config : Option LocalAppConfig
  installation : Option LocalAppInstallation
deriving DecidableEq

/-- Observable effects of one ensureLocalApp call, in order: the
network fetch of downloadLocalApp, a termination signal to a pid, the
fs.access executability check of a path, a write to installationKey, a
write to configKey, the streaming install of the downloaded binary,
and the spawn of the local app process. -/
inductive Ev where
  | probe
  | kill (pid : Nat)
  | accessCheck (p : String)
  | storeInstallation (v : Option LocalAppInstallation)
  | storeConfig (v : Option LocalAppConfig)
  | installDownload
  | spawn
deriving DecidableEq

/-- Result of one ensureLocalApp call: the returned config or thrown
error, the final shared-store entries, and the emitted effects in
program order. -/
structure EnsureResult where
  result : Except String LocalAppConfig
  store : EnsureState
  events : List Ev

/-- Lines 343-346, shared by both branches: startLocalApp (whose first
cancellation check aborts before the spawn when the token is
cancelled), then the write of the new config to configKey, then a
cancellation check; a spawn failure is rethrown without any store
update. -/
def startPhase (env : EnsureEnv) (st : EnsureState) (evs : List Ev)
    (inst : LocalAppInstallation) : EnsureResult :=
  if env.cancelled then
    { result := .error "cancelled", store := st, events := evs }
  else
    match env.startApp inst with
    | .error e => { result := .error e, store := st, events := evs ++ [Ev.spawn] }
    | .ok cfg =>
      { result := .ok cfg
        store := { st with config := some cfg }
        events := evs ++ [Ev.spawn, Ev.storeConfig (some cfg)] }

/-- Lines 334-341: no usable installation remains, so a captured probe
failure is rethrown; otherwise the download is streamed to a fresh
file by installLocalApp, the new record is written to installationKey,
and the start phase runs. -/
def installPhase (env : EnsureEnv) (st : EnsureState) (evs : List Ev)
    (dl : Except String RawResp) : EnsureResult :=
  match dl with
  | .error e => { result := .error e, store := st, events := evs }
  | .ok r =>
    match env.installFresh r with
    | .error e =>
      { result := .error e, store := st, events := evs ++ [Ev.installDownload] }
    | .ok instN =>
      startPhase env { st with installation := some instN }
        (evs ++ [Ev.installDownload, Ev.storeInstallation (some instN)]) instN

/-- ensureLocalApp, lines 266-347, translated step by step.  The
stored config is dropped when its pid is dead (lines 270-272).  With a
configured installation path (lines 276-296): a stored installation
with a different path is invalidated and a live config's process is
killed; a surviving live config is returned as is; otherwise the
configured path is access-checked and becomes the new stored record,
and the start phase runs; no download occurs.  Without one (lines
297-342): the endpoint is always probed, a failed or non-ok or
cancelled fetch becoming a captured error; a stored installation is
invalidated (and a live config's process killed) only when the probe
succeeded with a truthy etag differing from the stored one; a
surviving live config is returned; a surviving installation is
access-checked and dropped on failure; if none remains the install
phase runs, and finally the start phase. -/
def ensureLocalApp (env : EnsureEnv) (st : EnsureState) : EnsureResult :=
  let config1 : Option LocalAppConfig :=
    match st.config with
    | some c => if env.alive c.pid then some c else none
    | none => none
  match env.configuredInstallationPath with
  | some cip =>
    let inv : Bool :=
      match st.installation with
      | some inst => decide (inst.path ≠ cip)
      | none => false
    let killEvs : List Ev :=
      if inv then
        (match config1 with | some c => [Ev.kill c.pid] | none => [])
      else []
    let config2 : Option LocalAppConfig := if inv then none else config1
    match config2 with
    | some c => { result := .ok c, store := st, events := killEvs }
    | none =>
      let evs := killEvs ++ [Ev.accessCheck cip]
      if env.executable cip then
        if env.cancelled then
          { result := .error "cancelled", store := st, events := evs }
        else
          let inst2 : LocalAppInstallation := { path := cip, etag := none }
          startPhase env { st with installation := some inst2 }
            (evs ++ [Ev.storeInstallation (some inst2)]) inst2
      else
        { result := .error "cannot access the configured installation path"
          store := st, events := evs }
  | none =>
    let dl : Except String RawResp :=
      match env.download with
      | .error e => .error e
      | .ok r =>
        if env.cancelled then .error "cancelled"
        else if r.ok then .ok r
        else .error ("unexpected download response " ++ r.statusText)
    let upg : Bool :=
      match st.installation, dl with
      | some inst, .ok r => etagTruthy r.etag && decide (r.etag ≠ inst.etag)
      | _, _ => false
    let killEvs : List Ev :=
      if upg then
        (match config1 with | some c => [Ev.kill c.pid] | none => [])
      else []
    let config2 : Option LocalAppConfig := if upg then none else config1
    let inst1 : Option LocalAppInstallation := if upg then none else st.installation
    match config2 with
    | some c => { result := .ok c, store := st, events := Ev.probe :: killEvs }
    | none =>
      match inst1 with
      | some inst =>
        let evs := Ev.probe :: killEvs ++ [Ev.accessCheck inst.path]
        if env.cancelled then
          { result := .error "cancelled", store := st, events := evs }
        else if env.executable inst.path then
          startPhase env st evs inst
        else
          installPhase env st evs dl
      | none => installPhase env st (Ev.probe :: killEvs) dl

/-- The grpc status codes distinguished by the retry loop of
withLocalApp (line 366): Unavailable and Unknown mean the endpoint is
unreachable or in an unknown state; every other code is collapsed into
otherCode. -/
inductive GrpcCode where
  | unavailable
  | unknown
  | otherCode
deriving DecidableEq

/-- An error raised by an RPC operation, carrying its grpc code. -/
structure RpcError where
  code : GrpcCode
  msg : String
deriving DecidableEq

/-- An error surfaced by the retry loop: a cancellation, or an RPC
error rethrown verbatim. -/
inductive CallError where
  | cancelledError
  | rpc (e : RpcError)
deriving DecidableEq

/-- The observations of one iteration of the retry loop of lines
357-379: the outcome of the operation, the cancellation token state
right after it, the liveness of the instance's pid as re-read this
iteration, and the token state after the 1s delay. -/
structure CallIter (T : Type) where
  opResult : Except RpcError T
  cancelledNow : Bool
  aliveNow : Bool
  cancelledAfterDelay : Bool

/-- The decision of one loop iteration: return the value, surface a
fatal error, or retry after the given delay in ms. -/
inductive CallStep (T : Type) where
  | ret (v : T)
  | fatal (e : CallError)
  | retryAfter (delayMs : Nat)

/-- One iteration of the body of withLocalApp's while loop, lines
358-378: a successful operation returns its value after a cancellation
check; on failure, cancellation is checked, then liveness is re-read,
and only a live pid together with code Unavailable or Unknown leads to
a retry after a 1000 ms delay (with a further cancellation check after
the delay); in every other case the original error is rethrown. -/
def callStep {T : Type} (it : CallIter T) : CallStep T :=
  match it.opResult with
  | .ok v => if it.cancelledNow then .fatal .cancelledError else .ret v
  | .error e =>
    if it.cancelledNow then .fatal .cancelledError
    else if it.aliveNow &&
        (decide (e.code = GrpcCode.unavailable) || decide (e.code = GrpcCode.unknown)) then
      if it.cancelledAfterDelay then .fatal .cancelledError
      else .retryAfter 1000
    else .fatal (.rpc e)

/-- The retry loop over a trace of per-iteration observations; none
means the trace ended with the loop still retrying. -/
def callLoop {T : Type} : List (CallIter T) → Option (Except CallError T)
  | [] => none
  | it :: rest =>
    match callStep it with
    | .ret v => some (.ok v)
    | .fatal e => some (.error e)
    | .retryAfter _ => callLoop rest

/-- A concrete running config used by witnesses below. -/
def cfgW : LocalAppConfig :=
  { gitpodHost := "https://gitpod.example.org"
    configFile := "/tmp/gitpod_ssh_config_1"
    apiPort := 41000
    pid := 7
    logPath := "/tmp/gitpod-local-companion.log" }

/-- A concrete stored installation with a recorded etag. -/
def instW : LocalAppInstallation :=
  { path := "/tmp/gitpod-local-companion", etag := some "abc" }

/-- A concrete successful download response carrying the same etag as
instW. -/
def respSame : RawResp := { ok := true, statusText := "OK", etag := some "abc" }

/-- A concrete successful download response whose etag header is the
empty string: a tag that differs from the stored one but is falsy in
the upgrade guard. -/
def respEmptyTag : RawResp := { ok := true, statusText := "OK", etag := some "" }

/-- A concrete successful download response with a fresh non-empty
etag. -/
def respNewTag : RawResp := { ok := true, statusText := "OK", etag := some "def" }

/-- An environment with no override, a live pid 7, an executable
filesystem and a successful probe returning the unchanged tag. -/
def envSameTag : EnsureEnv :=
  { alive := fun p => p = 7
    configuredInstallationPath := none
    download := .ok respSame
    executable := fun _ => true
    installFresh := fun r => .ok { path := "/tmp/fresh-companion", etag := r.etag }
    startApp := fun _ => .ok cfgW
    cancelled := false }

/-- The stored state with the running config cfgW and installation
instW. -/
def stW : EnsureState := { config := some cfgW, installation := some instW }

/-- Like envSameTag but the probe answers with the empty-string etag
of respEmptyTag. -/
def envEmptyTag : EnsureEnv :=
  { envSameTag with download := .ok respEmptyTag }

/-- An environment with the override path /opt/companion configured,
differing from instW's path; no probe result is ever consulted. -/
def envOverride : EnsureEnv :=
  { envSameTag with
    configuredInstallationPath := some "/opt/companion"
    download := .error "offline" }

/-- Like envOverride but the configured path fails the executability
check. -/
def envOverrideBad : EnsureEnv :=
  { envOverride with executable := fun _ => false }

/-- Like envSameTag but the probe answers with the fresh non-empty
etag of respNewTag. -/
def envNewTag : EnsureEnv :=
  { envSameTag with download := .ok respNewTag }

theorem mutexInv_step {n : Nat} (cancel : Fin n → Bool) (dl pd : Fin n → Nat)
    (s : LockSys n) (i : Fin n)
    (hinv : MutexInv s) (hsafe : s.pcs i = APC.writeL → s.store = none) :
    MutexInv (stepSys cancel dl pd s i) := by
  intro k hk
  by_cases hki : k = i
  · subst hki
    cases hpc : s.pcs k with
    | read1 =>
      exfalso
      cases hst : s.store <;>
        simp [stepSys, stepAttempt, hpc, hst, Function.update_same] at hk
    | writeL =>
      exfalso
      simp [stepSys, stepAttempt, hpc, Function.update_same] at hk
    | read2 =>
      cases hst : s.store with
      | none =>
        exfalso
        simp [stepSys, stepAttempt, hpc, hst, Function.update_same] at hk
      | some l =>
        by_cases hv : l.value = k.val
        · exact ⟨l, by simp [stepSys, stepAttempt, hpc, hst, hv], hv.symm⟩
        · exfalso
          simp [stepSys, stepAttempt, hpc, hst, hv, Function.update_same] at hk
    | granted =>
      obtain ⟨l, hl, hkl⟩ := hinv k hpc
      exact ⟨l, by simp [stepSys, stepAttempt, hpc, hl], hkl⟩
  · have hk2 : s.pcs k = APC.granted := by
      simpa [stepSys, Function.update_noteq hki] using hk
    obtain ⟨l, hl, hkl⟩ := hinv k hk2
    cases hpc : s.pcs i with
    | writeL =>
      exfalso
      rw [hsafe hpc] at hl
      exact Option.noConfusion hl
    | read1 =>
      refine ⟨l, ?_, hkl⟩
      cases hst : s.store <;> simp_all [stepSys, stepAttempt]
    | read2 =>
      refine ⟨l, ?_, hkl⟩
      cases hst : s.store with
      | none => simp_all [stepSys, stepAttempt]
      | some l2 =>
        by_cases hv : l2.value = i.val <;> simp_all [stepSys, stepAttempt]
    | granted =>
      exact ⟨l, by simp [stepSys, stepAttempt, hpc, hl], hkl⟩

theorem mutexInv_run {n : Nat} (cancel : Fin n → Bool) (dl pd : Fin n → Nat) :
    ∀ (sched : List (Fin n)) (s : LockSys n),
      safeSchedB cancel dl pd sched s = true → MutexInv s →
      MutexInv (runLock cancel dl pd sched s)
  | [], _, _, hinv => hinv
  | i :: rest, s, hsafe, hinv => by
    rw [safeSchedB, Bool.and_eq_true, decide_eq_true_eq] at hsafe
    exact mutexInv_run cancel dl pd rest _ hsafe.2
      (mutexInv_step cancel dl pd s i hinv hsafe.1)

/-- Claim C1 (amended): the write-then-verify protocol is not
exclusive under arbitrary interleavings of store accesses - two
attempts can both observe their own token on the verifying re-read
and be granted with overlapping validity windows (see the
counterexample).  Mutual exclusion does hold under the additional
assumption that every write lands on a still-empty cell, i.e. no
write is issued from a stale empty read: then at most one attempt is
ever granted over the whole run. -/
theorem c1_writeVerify_mutualExclusion {n : Nat} (cancel : Fin n → Bool)
    (dl pd : Fin n → Nat) (sched : List (Fin n)) (i j : Fin n)
    (hsafe : safeSchedB cancel dl pd sched (lockInit n) = true)
    (hi : (runLock cancel dl pd sched (lockInit n)).pcs i = APC.granted)
    (hj : (runLock cancel dl pd sched (lockInit n)).pcs j = APC.granted) :
    i = j := by
  have hinv0 : MutexInv (lockInit n) := by
    intro k hk
    simp [lockInit] at hk
  have hinv := mutexInv_run cancel dl pd sched (lockInit n) hsafe hinv0
  obtain ⟨l, hl, hil⟩ := hinv i hi
  obtain ⟨l2, hl2, hjl⟩ := hinv j hj
  rw [hl] at hl2
  cases hl2
  exact Fin.val_injective (hil.trans hjl.symm)

/-- Claim C1 fails as stated: under the interleaving in which both
attempts read the empty cell, then attempt 0 writes and verifies, then
attempt 1 writes and verifies, both attempts observe their own token
unchanged on the re-read after their write and both are granted. -/
theorem c1_counterexample :
    ((runLock (fun _ => false) (fun _ => 1000) (fun i => i.val)
        ([0, 1, 0, 0, 1, 1] : List (Fin 2)) (lockInit 2)).pcs 0 = APC.granted) ∧
    ((runLock (fun _ => false) (fun _ => 1000) (fun i => i.val)
        ([0, 1, 0, 0, 1, 1] : List (Fin 2)) (lockInit 2)).pcs 1 = APC.granted) := by
  constructor <;> decide

theorem c1_witness :
    safeSchedB (fun _ => false) (fun _ => 1000) (fun i => i.val)
      ([0, 0, 0] : List (Fin 2)) (lockInit 2) = true ∧
    (runLock (fun _ => false) (fun _ => 1000) (fun i => i.val)
      ([0, 0, 0] : List (Fin 2)) (lockInit 2)).pcs 0 = APC.granted ∧
    (0 : Fin 2) = 0 := by
  refine ⟨by decide, by decide, ?_⟩
  exact c1_writeVerify_mutualExclusion (fun _ => false) (fun _ => 1000)
    (fun i => i.val) ([0, 0, 0] : List (Fin 2)) 0 0 (by decide) (by decide) (by decide)

theorem stepSys_cancel_irrel {n : Nat} (c c2 : Fin n → Bool) (dl pd : Fin n → Nat)
    (s : LockSys n) (i : Fin n) :
    stepSys c dl pd s i = stepSys c2 dl pd s i := rfl

/-- Claim C2 (amended): the acquisition poll loop of withLock performs
no cancellation check, so the whole acquisition run is independent of
the caller's cancellation flags - a cancelled caller keeps polling and
can still acquire the lock (see the counterexample).  Cancellation
only takes effect after acquisition, through the token source that the
caller's token is linked to. -/
theorem c2_pollLoop_ignores_cancellation {n : Nat} (dl pd : Fin n → Nat)
    (c c2 : Fin n → Bool) (sched : List (Fin n)) (s : LockSys n) :
    runLock c dl pd sched s = runLock c2 dl pd sched s ∧
    (∀ b : Bool, opTokenCancelled true b = true) := by
  constructor
  · induction sched generalizing s with
    | nil => rfl
    | cons i rest ih =>
      rw [runLock, runLock, stepSys_cancel_irrel c c2]
      exact ih _
  · intro b; rfl

/-- Claim C2 fails as stated: an attempt whose caller token is
cancelled from the very start still acquires a free lock (left
conjunct), and against a foreign holder it keeps polling forever
instead of failing with a cancellation error (right conjunct, the
attempt is back at the top of the loop after four steps). -/
theorem c2_counterexample :
    ((runLock (fun _ => true) (fun _ => 1000) (fun i => i.val)
        ([0, 0, 0] : List (Fin 1)) (lockInit 1)).pcs 0 = APC.granted) ∧
    ((runLock (fun _ => true) (fun _ => 1000) (fun i => i.val)
        ([0, 0, 0, 0] : List (Fin 1)) contendedInit).pcs 0 = APC.read1) := by
  constructor <;> decide

/-- Claim C3 fails as stated: one tick of the holder's renewal timer
leaves the stored record exactly as it was read - in particular the
deadline 100 is not re-written to a later one - and once the clock
passes that deadline the record is deleted by the sweep even though
the holding process (pid 3) is alive. -/
theorem c3_counterexample :
    (renewalTick (some { value := 7, deadline := 100, pid := some 3 }) 7 false).1 =
      some { value := 7, deadline := 100, pid := some 3 } ∧
    shouldReleaseLock 150 (fun _ => true)
      (GVal.lockRecord { value := 7, deadline := 100, pid := some 3 }) = true := by
  constructor <;> decide

/-- Claim C3 (amended): the holder's 150 ms timer only re-reads the
record and cancels the guarded operation exactly when the stored token
no longer matches its own; it never writes, so the stored record (and
its deadline) is unchanged by a tick, and a record held past its
deadline satisfies the sweep's deletion condition. -/
theorem c3_renewalTimer_never_refreshes :
    (∀ (store : Option Lock) (tok : Nat) (c : Bool),
      (renewalTick store tok c).1 = store) ∧
    (∀ (store : Option Lock) (tok : Nat),
      (renewalTick store tok false).2 = renewalCancels store tok) ∧
    (∀ (now : Nat) (alive : Nat → Bool) (l : Lock), l.deadline ≤ now →
      shouldReleaseLock now alive (GVal.lockRecord l) = true) := by
  refine ⟨?_, ?_, ?_⟩
  · intro store tok c
    cases store <;> rfl
  · intro store tok
    cases store with
    | none => rfl
    | some l => by_cases hv : l.value = tok <;> simp [renewalTick, renewalCancels, hv]
  · intro now alive l h
    simp only [shouldReleaseLock]
    rw [decide_eq_true h, Bool.true_or]

theorem c3_witness :
    (renewalTick (some { value := 1, deadline := 5, pid := none }) 1 false).1 =
      some { value := 1, deadline := 5, pid := none } ∧
    shouldReleaseLock 5 (fun _ => false)
      (GVal.lockRecord { value := 1, deadline := 5, pid := none }) = true := by
  exact ⟨c3_renewalTimer_never_refreshes.1 _ 1 false,
    c3_renewalTimer_never_refreshes.2.2 5 (fun _ => false) _ (by decide)⟩

/-- Claim C9: on both exit paths of the guarded operation (a returned
value, or a thrown error - cancellation arriving as an error) the
finally block leaves the lock key absent; the deletion ignores the
current cell content, so it happens even when the stored record's
token is not the releaser's own; releasing an already-released cell is
the same as releasing once; and the operation's outcome passes through
unchanged. -/
theorem c9_release_every_exit_unconditional :
    (∀ (store : Option Lock) (v : Nat), (withLockFinish store (.ok v)).1 = none) ∧
    (∀ (store : Option Lock) (e : String), (withLockFinish store (.error e)).1 = none) ∧
    (∀ (store : Option Lock) (r : Except String Nat), (withLockFinish store r).2 = r) ∧
    (∀ (r r2 : Except String Nat) (store : Option Lock),
      withLockFinish (withLockFinish store r).1 r2 = withLockFinish store r2) :=
  ⟨fun _ _ => rfl, fun _ _ => rfl, fun _ _ => rfl, fun _ _ _ => rfl⟩

theorem lookupKey_eq_none_of_not_mem (k : String) :
    ∀ l : List (String × GVal), k ∉ l.map Prod.fst → lookupKey k l = none := by
  intro l
  induction l with
  | nil => intro _; rfl
  | cons a rest ih =>
    intro h
    obtain ⟨ka, va⟩ := a
    rw [List.map_cons, List.mem_cons] at h
    push_neg at h
    rw [lookupKey, if_neg h.1]
    exact ih h.2

theorem lookupKey_filter_none (k : String) (p : String × GVal → Bool) :
    ∀ l : List (String × GVal), lookupKey k l = none →
      lookupKey k (l.filter p) = none := by
  intro l
  induction l with
  | nil => intro _; rfl
  | cons a rest ih =>
    intro h
    obtain ⟨ka, va⟩ := a
    rw [lookupKey] at h
    by_cases hk : k = ka
    · rw [if_pos hk] at h
      exact Option.noConfusion h
    · rw [if_neg hk] at h
      rw [List.filter_cons]
      by_cases hp : p (ka, va)
      · rw [if_pos hp, lookupKey, if_neg hk]
        exact ih h
      · rw [if_neg hp]
        exact ih h

theorem lookupKey_releaseStale (now : Nat) (alive : Nat → Bool) (k : String) :
    ∀ store : List (String × GVal), (store.map Prod.fst).Nodup →
      lookupKey k (releaseStaleLocks now alive store) =
        match lookupKey k store with
        | none => none
        | some v =>
          if k.startsWith lockPrefix && shouldReleaseLock now alive v then none
          else some v := by
  intro store
  induction store with
  | nil => intro _; rfl
  | cons a rest ih =>
    intro hnd
    obtain ⟨ka, va⟩ := a
    rw [List.map_cons, List.nodup_cons] at hnd
    obtain ⟨hka, hrest⟩ := hnd
    rw [releaseStaleLocks, List.filter_cons]
    by_cases hk : k = ka
    · subst hk
      by_cases hb : k.startsWith lockPrefix && shouldReleaseLock now alive va
      · rw [if_neg (by simp [hb])]
        have hnone : lookupKey k rest = none :=
          lookupKey_eq_none_of_not_mem k rest hka
        rw [lookupKey_filter_none k _ rest hnone]
        simp [lookupKey, hb]
      · rw [if_pos (by simp [hb])]
        simp [lookupKey, hb]
    · have htail := ih hrest
      rw [releaseStaleLocks] at htail
      by_cases hp : ka.startsWith lockPrefix && shouldReleaseLock now alive va
      · rw [if_neg (by simp [hp])]
        rw [htail]
        simp [lookupKey, hk]
      · rw [if_pos (by simp [hp])]
        simp only [lookupKey, hk, if_false]
        exact htail

/-- Claim C8: one sweep cycle deletes a stored entry under a
lock-prefixed key exactly when its value fails the isLock guard, or
its deadline has been reached, or a pid field is present and that
process is dead; keys outside the lock prefix are untouched; and for a
record without a pid only the deadline test applies, so such a record
with a live deadline is never deleted. -/
theorem c8_sweep_deletes_exactly_stale (now : Nat) (alive : Nat → Bool)
    (store : List (String × GVal)) (hnd : (store.map Prod.fst).Nodup) (k : String) :
    (lookupKey k (releaseStaleLocks now alive store) =
      match lookupKey k store with
      | none => none
      | some v =>
        if k.startsWith lockPrefix && shouldReleaseLock now alive v then none
        else some v) ∧
    (∀ l : Lock, l.pid = none → now < l.deadline →
      shouldReleaseLock now alive (GVal.lockRecord l) = false) := by
  constructor
  · exact lookupKey_releaseStale now alive k store hnd
  · intro l hpid hd
    simp only [shouldReleaseLock, hpid, Bool.or_false]
    exact decide_eq_false (by omega)

theorem c8_witness :
    lookupKey "lock/a" (releaseStaleLocks 150 (fun p => p = 3)
      [("lock/a", GVal.lockRecord { value := 0, deadline := 100, pid := some 3 }),
       ("lock/b", GVal.lockRecord { value := 1, deadline := 900, pid := none }),
       ("config/x", GVal.nonLockValue)]) =
      (match lookupKey "lock/a"
          [("lock/a", GVal.lockRecord { value := 0, deadline := 100, pid := some 3 }),
           ("lock/b", GVal.lockRecord { value := 1, deadline := 900, pid := none }),
           ("config/x", GVal.nonLockValue)] with
        | none => none
        | some v =>
          if ("lock/a").startsWith lockPrefix && shouldReleaseLock 150 (fun p => p = 3) v
          then none else some v) ∧
    shouldReleaseLock 150 (fun p => p = 3)
      (GVal.lockRecord { value := 1, deadline := 900, pid := none }) = false := by
  constructor
  · exact (c8_sweep_deletes_exactly_stale 150 (fun p => p = 3) _ (by decide) "lock/a").1
  · exact (c8_sweep_deletes_exactly_stale 150 (fun p => p = 3) [] (by decide) "lock/a").2
      { value := 1, deadline := 900, pid := none } rfl (by decide)

/-- Claim C5: one failing iteration of withLocalApp's loop is
classified exactly as the code of lines 363-378 does: a dead pid
surfaces the original error fatally with no retry regardless of the
grpc code; a live pid with code Unavailable or Unknown retries the
same operation after the 1000 ms delay, the outcome then being that of
the remaining iterations, each of which re-reads its own liveness and
cancellation (a cancellation observed after the delay aborts instead
of retrying); a live pid with any other code surfaces the error
fatally; and an iteration that observes cancellation always aborts
with the cancellation error. -/
theorem c5_rpc_retry_classification {T : Type} (it : CallIter T)
    (rest : List (CallIter T)) (e : RpcError)
    (hop : it.opResult = .error e) (hnc : it.cancelledNow = false) :
    (it.aliveNow = false → callLoop (it :: rest) = some (.error (.rpc e))) ∧
    (it.aliveNow = true → (e.code = GrpcCode.unavailable ∨ e.code = GrpcCode.unknown) →
      (it.cancelledAfterDelay = false →
        callStep it = CallStep.retryAfter 1000 ∧ callLoop (it :: rest) = callLoop rest) ∧
      (it.cancelledAfterDelay = true →
        callLoop (it :: rest) = some (.error .cancelledError))) ∧
    (it.aliveNow = true → e.code = GrpcCode.otherCode →
      callLoop (it :: rest) = some (.error (.rpc e))) ∧
    (∀ (it2 : CallIter T) (r2 : List (CallIter T)), it2.cancelledNow = true →
      callLoop (it2 :: r2) = some (.error .cancelledError)) := by
  refine ⟨?_, ?_, ?_, ?_⟩
  · intro ha
    simp [callLoop, callStep, hop, hnc, ha]
  · intro ha hcode
    constructor
    · intro hcd
      have h1 : callStep it = CallStep.retryAfter 1000 := by
        rcases hcode with h | h <;> simp [callStep, hop, hnc, ha, hcd, h]
      exact ⟨h1, by simp [callLoop, h1]⟩
    · intro hcd
      rcases hcode with h | h <;> simp [callLoop, callStep, hop, hnc, ha, hcd, h]
  · intro ha hcode
    simp [callLoop, callStep, hop, hnc, ha, hcode]
  · intro it2 r2 hc2
    cases h2 : it2.opResult <;> simp [callLoop, callStep, h2, hc2]

theorem c5_witness :
    callLoop ([{ opResult := Except.error { code := GrpcCode.unavailable, msg := "conn refused" },
                 cancelledNow := false, aliveNow := false, cancelledAfterDelay := false }] :
        List (CallIter Nat)) =
      some (.error (.rpc { code := GrpcCode.unavailable, msg := "conn refused" })) := by
  exact (c5_rpc_retry_classification
    { opResult := Except.error { code := GrpcCode.unavailable, msg := "conn refused" },
      cancelledNow := false, aliveNow := false, cancelledAfterDelay := false }
    [] { code := GrpcCode.unavailable, msg := "conn refused" } rfl rfl).1 rfl

/-- Claim C4 (amended): with no configured override, a stored
installation whose tag equals the probe's tag and a stored config
whose pid is alive, ensureLocalApp returns the stored config and
leaves both store entries unchanged, so a second call returns the very
same result; but every such invocation performs the download probe -
the network fetch is not skipped on the second call. -/
theorem c4_ensure_idempotent_but_always_probes
    (env : EnsureEnv) (st : EnsureState) (r : RawResp) (c : LocalAppConfig)
    (inst : LocalAppInstallation)
    (hcip : env.configuredInstallationPath = none)
    (hcanc : env.cancelled = false)
    (hdl : env.download = .ok r) (hok : r.ok = true)
    (hinst : st.installation = some inst) (htag : r.etag = inst.etag)
    (hcfg : st.config = some c) (halive : env.alive c.pid = true) :
    ensureLocalApp env st = { result := .ok c, store := st, events := [Ev.probe] } ∧
    ensureLocalApp env (ensureLocalApp env st).store = ensureLocalApp env st := by
  have h1 : ensureLocalApp env st =
      { result := .ok c, store := st, events := [Ev.probe] } := by
    simp [ensureLocalApp, hcip, hcanc, hdl, hok, hinst, htag, hcfg, halive]
  refine ⟨h1, ?_⟩
  rw [h1]
  exact h1

/-- Claim C4 fails as stated: starting from a valid stored record and
a probe whose tag is unchanged, the first call leaves the store as it
was, and the second call - run from exactly that stored state - still
contains the download probe among its effects, i.e. the network fetch
happens again. -/
theorem c4_counterexample :
    (ensureLocalApp envSameTag stW).store = stW ∧
    (ensureLocalApp envSameTag stW).result = .ok cfgW ∧
    Ev.probe ∈ (ensureLocalApp envSameTag (ensureLocalApp envSameTag stW).store).events := by
  refine ⟨rfl, rfl, ?_⟩
  decide

theorem c4_witness :
    ensureLocalApp envSameTag stW =
      { result := .ok cfgW, store := stW, events := [Ev.probe] } := by
  exact (c4_ensure_idempotent_but_always_probes envSameTag stW respSame cfgW instW
    rfl rfl rfl rfl rfl rfl rfl rfl).1

/-- Claim C6: with a configured override path differing from the
stored installation's path, the live running process is first sent a
termination signal, then the configured path is access-checked, then
it is written to installationKey as the new record (etag null), in
that order; no download probe occurs anywhere on this path; and the
stored installation afterwards is the record for the configured
path. -/
theorem c6_override_switch (env : EnsureEnv) (st : EnsureState) (cip : String)
    (inst : LocalAppInstallation) (c : LocalAppConfig)
    (hcip : env.configuredInstallationPath = some cip)
    (hinst : st.installation = some inst) (hdiff : inst.path ≠ cip)
    (hcfg : st.config = some c) (halive : env.alive c.pid = true)
    (hexe : env.executable cip = true) (hcanc : env.cancelled = false) :
    (ensureLocalApp env st).events.take 3 =
      [Ev.kill c.pid, Ev.accessCheck cip,
        Ev.storeInstallation (some { path := cip, etag := none })] ∧
    Ev.probe ∉ (ensureLocalApp env st).events ∧
    (ensureLocalApp env st).store.installation =
      some { path := cip, etag := none } := by
  have hred : ensureLocalApp env st =
      startPhase env { st with installation := some { path := cip, etag := none } }
        [Ev.kill c.pid, Ev.accessCheck cip,
          Ev.storeInstallation (some { path := cip, etag := none })]
        { path := cip, etag := none } := by
    simp [ensureLocalApp, hcip, hinst, hdiff, hcfg, halive, hexe, hcanc]
  rw [hred]
  cases hs : env.startApp { path := cip, etag := none } with
  | error e => simp [startPhase, hcanc, hs]
  | ok cfg => simp [startPhase, hcanc, hs]

theorem c6_witness :
    (ensureLocalApp envOverride stW).events.take 3 =
      [Ev.kill cfgW.pid, Ev.accessCheck "/opt/companion",
        Ev.storeInstallation (some { path := "/opt/companion", etag := none })] ∧
    Ev.probe ∉ (ensureLocalApp envOverride stW).events ∧
    (ensureLocalApp envOverride stW).store.installation =
      some { path := "/opt/companion", etag := none } := by
  exact c6_override_switch envOverride stW "/opt/companion" instW cfgW
    rfl rfl (by decide) rfl rfl rfl rfl

/-- Claim C7 (amended): with no override, a successful probe, a stored
installation and a live stored config, the stored installation is
invalidated and the running process killed - forcing the streaming
reinstall - exactly on a probe etag that is present, non-empty and
different from the stored one; an unchanged tag keeps the config,
installation and process untouched.  A falsy probe tag (absent or the
empty string) never invalidates, even when it differs from the stored
tag - see the counterexample. -/
theorem c7_upgrade_on_truthy_tag_change
    (env : EnsureEnv) (st : EnsureState) (r : RawResp) (c : LocalAppConfig)
    (inst : LocalAppInstallation)
    (hcip : env.configuredInstallationPath = none)
    (hcanc : env.cancelled = false)
    (hdl : env.download = .ok r) (hok : r.ok = true)
    (hinst : st.installation = some inst)
    (hcfg : st.config = some c) (halive : env.alive c.pid = true) :
    (∀ t : String, r.etag = some t → t ≠ "" → r.etag ≠ inst.etag →
      Ev.kill c.pid ∈ (ensureLocalApp env st).events ∧
      Ev.installDownload ∈ (ensureLocalApp env st).events) ∧
    (r.etag = inst.etag →
      ensureLocalApp env st = { result := .ok c, store := st, events := [Ev.probe] }) := by
  constructor
  · intro t ht htne hdiffer
    have hd2 : some t ≠ inst.etag := ht ▸ hdiffer
    have hred : ensureLocalApp env st =
        installPhase env st [Ev.probe, Ev.kill c.pid] (.ok r) := by
      simp [ensureLocalApp, hcip, hcanc, hdl, hok, hinst, hcfg, halive, ht, htne,
        etagTruthy, hd2]
    rw [hred]
    cases hif : env.installFresh r with
    | error e => simp [installPhase, hif]
    | ok instN =>
      cases hs : env.startApp instN with
      | error e => simp [installPhase, startPhase, hif, hs, hcanc]
      | ok cfg => simp [installPhase, startPhase, hif, hs, hcanc]
  · intro htag
    simp [ensureLocalApp, hcip, hcanc, hdl, hok, hinst, htag, hcfg, halive]

/-- Claim C7 fails as stated: the probe succeeds with the etag header
set to the empty string, a version tag different from the stored one
(first conjunct); yet the stored installation is kept, the live config
is returned and the only effect is the probe itself - no kill, no
invalidation, no reinstall. -/
theorem c7_counterexample :
    (some "" : Option String) ≠ instW.etag ∧
    (ensureLocalApp envEmptyTag stW).result = .ok cfgW ∧
    (ensureLocalApp envEmptyTag stW).store.installation = some instW ∧
    (ensureLocalApp envEmptyTag stW).events = [Ev.probe] := by
  exact ⟨by decide, rfl, rfl, rfl⟩

theorem c7_witness :
    Ev.kill cfgW.pid ∈ (ensureLocalApp envNewTag stW).events ∧
    Ev.installDownload ∈ (ensureLocalApp envNewTag stW).events := by
  exact (c7_upgrade_on_truthy_tag_change envNewTag stW respNewTag cfgW instW
    rfl rfl rfl rfl rfl rfl rfl).1 "def" rfl (by decide) (by decide)

/-- Claim C10: in the configured-override branch with a differing
stored path, when the executability check of the configured path
fails, the call throws, the store (in particular the previously stored
installation record) is left unchanged and no installationKey write
happens - even though the running process was already sent the
termination signal before the check, as the exact effect list
shows. -/
theorem c10_access_failure_preserves_record
    (env : EnsureEnv) (st : EnsureState) (cip : String)
    (inst : LocalAppInstallation) (c : LocalAppConfig)
    (hcip : env.configuredInstallationPath = some cip)
    (hinst : st.installation = some inst) (hdiff : inst.path ≠ cip)
    (hcfg : st.config = some c) (halive : env.alive c.pid = true)
    (hexe : env.executable cip = false) :
    (ensureLocalApp env st).events = [Ev.kill c.pid, Ev.accessCheck cip] ∧
    (ensureLocalApp env st).result =
      .error "cannot access the configured installation path" ∧
    (ensureLocalApp env st).store = st := by
  refine ⟨?_, ?_, ?_⟩ <;>
    simp [ensureLocalApp, hcip, hinst, hdiff, hcfg, halive, hexe]

theorem c10_witness :
    (ensureLocalApp envOverrideBad stW).events =
      [Ev.kill cfgW.pid, Ev.accessCheck "/opt/companion"] ∧
    (ensureLocalApp envOverrideBad stW).result =
      .error "cannot access the configured installation path" ∧
    (ensureLocalApp envOverrideBad stW).store = stW := by
  exact c10_access_failure_preserves_record envOverrideBad stW "/opt/companion"
    instW cfgW rfl rfl (by decide) rfl rfl rfl

end Gitpod
